import Mathlib

/-!
A shallow embedding of the `clio` crate (CLI file-name/stream library) in Lean 4,
together with theorems checking its natural-language specification against the code.

The embedding translates the Rust source (`src/error.rs`, `src/path.rs`,
`src/http/mod.rs`, `src/http/ureq.rs`, `src/input.rs`, `src/output.rs`,
`src/lib.rs`) into executable Lean definitions.  OS and external-crate
behaviour (the filesystem, the `tempfile` crate, the `ureq` HTTP client,
`url::Url::parse`) is modelled explicitly: the filesystem is a finite
association list from path strings to file nodes, URL parsing is an abstract
function parameter, and the outcomes of blocking OS or network operations
(a worker thread's terminal result, a flush, a durability sync) are explicit
arguments of the definitions that consume them.

The file is organised as all definitions first, then all theorems.
-/

namespace Clio

/-! ## Error model (src/error.rs)

Rust's `std::io::ErrorKind`, restricted to the kinds this crate mentions.
`uncategorized` stands for every kind the crate does not inspect. -/

inductive ErrorKindM where
  | notFound
  | permissionDenied
  | isADirectory
  | notADirectory
  | other
  | uncategorized
  deriving DecidableEq, Repr

/-- Unix `errno` decoding as performed by Rust's standard library
(`decode_error_kind`), restricted to the error numbers this crate produces:
ENOENT(2) → NotFound, EACCES(13) → PermissionDenied; the remaining numbers the
crate uses (ENOTDIR=20, EISDIR=21, ESPIPE=29) had no stable `ErrorKind` at the
crate's Rust edition and decode to an uncategorized kind. -/
def decodeErrno (code : Nat) : ErrorKindM :=
  if code = 2 then .notFound
  else if code = 13 then .permissionDenied
  else .uncategorized

/-- Model of `std::io::Error`: either built from a raw OS error number
(`io::Error::from_raw_os_error`) or a custom error with an explicit kind and
message (`io::Error::new`). -/
inductive IoErrorM where
  | fromRawOsError (code : Nat)
  | custom (kind : ErrorKindM) (msg : String)
  deriving DecidableEq, Repr

/-- `std::io::Error::kind` on the model. -/
def IoErrorM.kind : IoErrorM → ErrorKindM
  | .fromRawOsError code => decodeErrno code
  | .custom k _ => k

/-- `enum Error` from src/error.rs: `Io(io::Error)` or `Http { code, message }`. -/
inductive Error where
  | io (e : IoErrorM)
  | http (code : Nat) (message : String)
  deriving DecidableEq, Repr

/-- `Error::kind` from src/error.rs lines 60-70: an `Io` error keeps the kind of
the wrapped OS error; an `Http` error maps 404/410 to `NotFound`, 401/403 to
`PermissionDenied`, and everything else to `Other`. -/
def Error.kind : Error → ErrorKindM
  | .io err => err.kind
  | .http code _ =>
    if code = 404 ∨ code = 410 then .notFound
    else if code = 401 ∨ code = 403 then .permissionDenied
    else .other

/-- `Error::other` from src/error.rs: a custom `Io` error of kind `Other`. -/
def Error.otherErr (message : String) : Error :=
  .io (.custom .other message)

/-- `Error::seek_error()` (unix): `Io(from_raw_os_error(ESPIPE))`, ESPIPE = 29. -/
def Error.seekError : Error := .io (.fromRawOsError 29)

/-- `Error::dir_error()` (unix): `Io(from_raw_os_error(EISDIR))`, EISDIR = 21. -/
def Error.dirError : Error := .io (.fromRawOsError 21)

/-- `Error::not_dir_error()` (unix): `Io(from_raw_os_error(ENOTDIR))`, ENOTDIR = 20. -/
def Error.notDirError : Error := .io (.fromRawOsError 20)

/-- `Error::permission_error()` (unix): `Io(from_raw_os_error(EACCES))`, EACCES = 13. -/
def Error.permissionError : Error := .io (.fromRawOsError 13)

/-- `Error::not_found_error()` (unix): `Io(from_raw_os_error(ENOENT))`, ENOENT = 2. -/
def Error.notFoundError : Error := .io (.fromRawOsError 2)

/-! ## Path classification (src/path.rs, src/http/mod.rs)

An `OsStr` raw argument is modelled by its lossy UTF-8 decoding together with
a flag saying whether the original bytes were valid UTF-8.  (When the bytes
are invalid, the lossy decoding contains replacement characters, so it can
never equal a plain string such as `"-"`; the model keeps the two fields
independent and tests validity explicitly where the source does.) -/

structure OsStrM where
  lossy : String
  validUtf8 : Bool
  deriving DecidableEq, Repr

/-- `OsStr == "-"` byte equality on the model: the bytes equal the bytes of
`t` exactly when they are valid UTF-8 and the decoding equals `t`. -/
def OsStrM.eqStr (s : OsStrM) (t : String) : Bool :=
  s.validUtf8 && s.lossy == t

/-- Abstract `url::ParseError` (external `url` crate); `msg` models its
`to_string()` rendering. -/
structure UrlParseErrorM where
  msg : String
  deriving DecidableEq, Repr

/-- Abstract parsed `url::Url` (external `url` crate). -/
structure Url where
  urlStr : String
  deriving DecidableEq, Repr

/-- `str::starts_with` on the model, computed on the character lists so that
it evaluates inside the kernel. -/
def strStartsWith (s pre : String) : Bool :=
  pre.toList.isPrefixOf s.toList

/-- `is_http` from src/http/mod.rs lines 26-29: the lossy decoding starts with
an HTTP or HTTPS scheme. -/
def is_http (url : OsStrM) : Bool :=
  strStartsWith url.lossy "http://" || strStartsWith url.lossy "https://"

/-- `try_to_url` from src/http/mod.rs lines 15-24.  `Url::parse` is external,
so it is passed as a function argument; a parse failure is converted by
`From<url::ParseError> for Error` (src/error.rs lines 117-125) into
`Http { code: 400, message }`. -/
def try_to_url (parseToUrl : String → Except UrlParseErrorM Url) (url : OsStrM) :
    Except Error Url :=
  if url.validUtf8 then
    match parseToUrl url.lossy with
    | .ok u => .ok u
    | .error err => .error (.http 400 err.msg)
  else
    .error (.http 400 "url is not a valid UTF8 string")

/-- `enum InOut` from src/path.rs. -/
inductive InOut where
  | In
  | Out
  deriving DecidableEq, Repr

/-- `enum ClioPathEnum` from src/path.rs lines 70-79. -/
inductive ClioPathEnumM where
  | Std (io : Option InOut)
  | Local (p : OsStrM)
  | Http (url : Url)
  deriving DecidableEq, Repr

/-- `ClioPathEnum::new` from src/path.rs lines 81-94: URL-looking strings are
parsed as URLs, exactly `"-"` becomes `Std`, everything else `Local`. -/
def ClioPathEnum.new (parseToUrl : String → Except UrlParseErrorM Url)
    (path : OsStrM) (io : Option InOut) : Except Error ClioPathEnumM :=
  if is_http path then
    (try_to_url parseToUrl path).map ClioPathEnumM.Http
  else if path.eqStr "-" then
    .ok (.Std io)
  else
    .ok (.Local path)

/-- `struct ClioPath` from src/path.rs lines 58-62: classified path plus the
atomic flag. -/
structure ClioPathC where
  path : ClioPathEnumM
  atomic : Bool
  deriving DecidableEq, Repr

/-- `ClioPath::new` from src/path.rs lines 100-105: classify with no
direction, atomic flag off. -/
def ClioPath.new (parseToUrl : String → Except UrlParseErrorM Url)
    (path : OsStrM) : Except Error ClioPathC :=
  (ClioPathEnum.new parseToUrl path none).map (fun p => ⟨p, false⟩)

/-! ## File metadata model (src/lib.rs)

A filesystem node as seen through `std::fs::Metadata`: its file type
(regular file with contents, FIFO, or directory) and whether its permission
bits make it read-only. -/

inductive NodeKind where
  | regular (content : List Nat)
  | fifo
  | dir
  deriving DecidableEq, Repr

structure FileNode where
  kind : NodeKind
  readonly : Bool
  deriving DecidableEq, Repr

/-- `is_fifo` from src/lib.rs lines 96-100 (unix): the metadata's file type is
a FIFO. -/
def is_fifo (meta : FileNode) : Bool :=
  match meta.kind with
  | .fifo => true
  | _ => false

/-- `Metadata::is_dir` on the model. -/
def FileNode.isDirMeta (meta : FileNode) : Bool :=
  match meta.kind with
  | .dir => true
  | _ => false

/-- `Metadata::len` on the model: the byte size of a regular file.  The sizes
the OS reports for FIFOs and directories are platform noise; the crate never
reads them, and the model fixes them to 0. -/
def FileNode.metadataLen (meta : FileNode) : Nat :=
  match meta.kind with
  | .regular content => content.length
  | _ => 0

/-! ## Filesystem model

A finite map from path strings to file nodes, as an association list.  Paths
are plain strings (the local paths the stream factory handles are the valid
UTF-8 case of `OsStrM`; the classification layer above keeps the general
`OsStr` model). -/

abbrev FS := List (String × FileNode)

def lookupFS : FS → String → Option FileNode
  | [], _ => none
  | (q, n) :: rest, p => if q = p then some n else lookupFS rest p

def eraseFS : FS → String → FS
  | [], _ => []
  | (q, n) :: rest, p => if q = p then eraseFS rest p else (q, n) :: eraseFS rest p

def insertFS (fs : FS) (p : String) (n : FileNode) : FS :=
  (p, n) :: eraseFS fs p

/-- `str::ends_with("/")` on path bytes, as `ClioPath::ends_with_slash`
(src/path.rs lines 311-323, unix) reads them. -/
def ends_with_slash (p : String) : Bool :=
  p.toList.getLast? = some '/'

/-- A path with its trailing `/` separators removed, which is how `stat`
resolves a trailing-slash path against the directory tree. -/
def stripTrailingSlashes (p : String) : String :=
  String.mk ((p.toList.reverse.dropWhile (fun c => c = '/')).reverse)

/-- POSIX `stat` on the model.  A trailing-slash path resolves only when the
slash-stripped path names a directory; it fails with ENOTDIR when it names a
non-directory, and reports "does not exist" (`.ok none`, the ENOENT case)
when nothing is there.  (The filesystem root `"/"` itself is not modelled;
no claim stats it.) -/
def statM (fs : FS) (p : String) : Except IoErrorM (Option FileNode) :=
  if ends_with_slash p then
    match lookupFS fs (stripTrailingSlashes p) with
    | some n => if n.isDirMeta then .ok (some n) else .error (.fromRawOsError 20)
    | none => .ok none
  else
    .ok (lookupFS fs p)

/-- `Path::try_exists` on the model: `Ok(false)` when nothing exists, and any
`stat` failure other than not-found propagates as `Err`. -/
def tryExists (fs : FS) (p : String) : Except IoErrorM Bool :=
  match statM fs p with
  | .error e => .error e
  | .ok (some _) => .ok true
  | .ok none => .ok false

/-- `Path::is_dir` on the model: metadata resolves and reports a directory;
`false` on any error. -/
def isDirPath (fs : FS) (p : String) : Bool :=
  match statM fs p with
  | .ok (some n) => n.isDirMeta
  | _ => false

/-- `Path::is_file` on the model: metadata resolves and reports a regular
file; `false` on any error. -/
def isFilePath (fs : FS) (p : String) : Bool :=
  match statM fs p with
  | .ok (some n) =>
    match n.kind with
    | .regular _ => true
    | _ => false
  | _ => false

/-- `Path::exists` on the model: metadata resolves; `false` on any error. -/
def existsPath (fs : FS) (p : String) : Bool :=
  match statM fs p with
  | .ok (some _) => true
  | _ => false

/-- `Path::parent` on the model (unix-style paths): drop the last component.
`"a/b"` → `"a"`, `"/a"` → `"/"`, `"a"` → `""`, `"/"` and `""` → none.
Redundant and trailing separators are not modelled; every caller in the crate
rejects trailing-slash paths before taking a parent. -/
def parentM (p : String) : Option String :=
  let l := p.toList
  if l = [] ∨ l = ['/'] then none
  else
    let rest := (l.reverse.dropWhile (fun c => c ≠ '/')).dropWhile (fun c => c = '/')
    match rest with
    | [] => if l.head? = some '/' then some "/" else some ""
    | _ => some (String.mk rest.reverse)

/-- `ClioPath::safe_parent` from src/path.rs lines 412-424 restricted to a
local path string: the path's parent, with the empty parent replaced by `"."`. -/
def safeParent (p : String) : Option String :=
  match parentM p with
  | none => none
  | some q => some (if q = "" then "." else q)

/-! ## Local-path model for the stream factories

The factories (`Input::new`, `OutputStream::new`, `OutputPath::new`) consume
an already-classified path.  At this layer local paths are valid UTF-8
strings, so the enum is re-expressed over `String`; URLs are carried as their
serialized form. -/

inductive ClioPathEnumF where
  | Std (io : Option InOut)
  | Local (p : String)
  | Http (url : String)
  deriving DecidableEq, Repr

structure ClioPathF where
  path : ClioPathEnumF
  atomic : Bool
  deriving DecidableEq, Repr

/-- `ClioPath::path` from src/path.rs lines 401-410: `-` when the direction
is unknown, the pseudo-device when known, the local path, or the URL's path
(modelled as the stored URL string; no claim reads it). -/
def ClioPathF.pathStr : ClioPathF → String
  | ⟨.Std none, _⟩ => "-"
  | ⟨.Std (some .In), _⟩ => "/dev/stdin"
  | ⟨.Std (some .Out), _⟩ => "/dev/stdout"
  | ⟨.Local p, _⟩ => p
  | ⟨.Http u, _⟩ => u

/-- `ClioPath::with_direction` from src/path.rs lines 123-131. -/
def ClioPathF.with_direction (cp : ClioPathF) (direction : InOut) : ClioPathF :=
  { path :=
      match cp.path with
      | .Std _ => .Std (some direction)
      | x => x,
    atomic := cp.atomic }

/-- `ClioPath::is_local` from src/path.rs lines 287-289. -/
def ClioPathF.is_local (cp : ClioPathF) : Bool :=
  match cp.path with
  | .Local _ => true
  | _ => false

/-- `ClioPath::is_fifo` from src/path.rs lines 291-304: a local path is a
FIFO when its metadata resolves and reports one; `Std` counts as a FIFO,
URLs do not. -/
def ClioPathF.is_fifoP (cp : ClioPathF) (fs : FS) : Bool :=
  match cp.path with
  | .Local p =>
    match statM fs p with
    | .ok (some meta) => is_fifo meta
    | _ => false
  | .Std _ => true
  | .Http _ => false

/-- `ClioPath::ends_with_slash` on the factory-level model. -/
def ClioPathF.endsWithSlash (cp : ClioPathF) : Bool :=
  ends_with_slash cp.pathStr

/-! ## Validation helpers (src/lib.rs lines 102-153) -/

/-- `assert_exists` from src/lib.rs lines 102-107 (the Rust name collides
with a Mathlib command, hence the camel case). -/
def assertExists (fs : FS) (p : String) : Except Error Unit :=
  if !existsPath fs p then .error Error.notFoundError else .ok ()

/-- `assert_writeable` from src/lib.rs lines 124-130: the path's metadata
must resolve (the `?` propagates a metadata failure, ENOENT when nothing is
there) and must not be read-only. -/
def assert_writeable (fs : FS) (p : String) : Except Error Unit :=
  match statM fs p with
  | .error e => .error (.io e)
  | .ok none => .error Error.notFoundError
  | .ok (some meta) =>
    if meta.readonly then .error Error.permissionError else .ok ()

/-- `assert_not_dir` from src/lib.rs lines 132-145. -/
def assert_not_dir (fs : FS) (cp : ClioPathF) : Except Error Unit := do
  let ex ← (tryExists fs cp.pathStr).mapError Error.io
  if ex then
    if isDirPath fs cp.pathStr then
      throw Error.dirError
    else if cp.endsWithSlash then
      throw Error.notDirError
  if cp.endsWithSlash then
    throw Error.dirError
  return ()

/-- `assert_is_dir` from src/lib.rs lines 147-153. -/
def assert_is_dir (fs : FS) (p : String) : Except Error Unit := do
  let _ ← assertExists fs p
  if !isDirPath fs p then
    throw Error.notDirError
  return ()

/-! ## HTTP bridge, ureq backend (src/http/ureq.rs)

The blocking `ureq` client and the worker thread are external to the pure
model, so each constructor takes the outcome it would observe as an explicit
argument: for `HttpWriter::new` the first message received on its
zero-capacity rendezvous channel, for `HttpReader::new` the result of the
blocking `ureq::get(url).call()`. -/

/-- `ureq::Error` (external crate): a non-2xx status with the response's
status text, or a transport-level failure with a message. -/
inductive UreqError where
  | status (code : Nat) (statusText : String)
  | transport (msg : String)
  deriving DecidableEq, Repr

/-- `From<ureq::Error> for Error` from src/http/ureq.rs lines 142-155:
a status error keeps its code and status text, any other failure becomes the
private pseudo-code 499. -/
def ureqErrorToError : UreqError → Error
  | .status code text => .http code text
  | .transport msg => .http 499 msg

/-- A `ureq` response, restricted to what `HttpReader::new` reads from it:
the `content-length` header if present. -/
structure ResponseM where
  contentLengthHeader : Option String
  deriving DecidableEq, Repr

/-- `str::parse::<u64>` on the model: optional leading `+`, then at least one
decimal digit, value below 2^64. -/
def parseU64 (s : String) : Option Nat :=
  let l := s.toList
  let digits := if l.head? = some '+' then l.tail else l
  if digits ≠ [] ∧ digits.all Char.isDigit then
    let v := digits.foldl (fun acc c => acc * 10 + (c.toNat - 48)) 0
    if v < 2 ^ 64 then some v else none
  else none

/-- The synchronization actions a bridge constructor performs, in order.
`rendezvousRecv` is a blocking receive on the zero-capacity channel created
with `sync_channel(0)`; `blockingCall` is a plain synchronous HTTP call on
the constructing thread. -/
inductive SyncEvent where
  | createPipe
  | spawnWorker
  | rendezvousRecv
  | blockingCall
  deriving DecidableEq, Repr

/-- `struct HttpWriter` from src/http/ureq.rs lines 9-12, with the pipe and
channel handles abstracted away and the request parameters kept. -/
structure HttpWriterM where
  url : String
  size : Option Nat
  deriving DecidableEq, Repr

/-- The synchronization actions of `HttpWriter::new` (src/http/ureq.rs lines
39-64), in source order: create the in-process pipe, spawn the worker that
issues the PUT, then block on `rx.recv()` for the rendezvous. -/
def HttpWriter.newEvents : List SyncEvent :=
  [.createPipe, .spawnWorker, .rendezvousRecv]

/-- `HttpWriter::new` from src/http/ureq.rs lines 39-64.  `firstMsg` is the
first message the rendezvous receive returns: `Ok(())` sent by the
`SnitchingReader` when the HTTP library first pulls body bytes (connection
established), or the worker's terminal result sent before any read when the
request fails first (the worker's `ureq` error already converted by
`From<ureq::Error>`).  A terminal failure becomes the constructor's own
error; only on the first-read signal is a writer returned. -/
def HttpWriter.new (url : String) (size : Option Nat)
    (firstMsg : Except Error Unit) : Except Error HttpWriterM :=
  match firstMsg with
  | .error e => .error e
  | .ok _ => .ok { url := url, size := size }

/-- `HttpWriter::finish` from src/http/ureq.rs lines 66-74: drop the write
end of the pipe, then block for the worker's terminal result and propagate
it. -/
def HttpWriter.finish (_w : HttpWriterM) (terminal : Except Error Unit) :
    Except Error Unit :=
  match terminal with
  | .error e => .error e
  | .ok _ => .ok ()

/-- `struct HttpReader` from src/http/ureq.rs lines 92-98: the declared
content length (the body reader is abstracted away). -/
structure HttpReaderM where
  length : Option Nat
  deriving DecidableEq, Repr

/-- The synchronization actions of `HttpReader::new` (src/http/ureq.rs lines
101-114): a single blocking `ureq::get(url).call()` on the constructing
thread.  No worker thread is spawned and no channel is created. -/
def HttpReader.newEvents : List SyncEvent :=
  [.blockingCall]

/-- `HttpReader::new` from src/http/ureq.rs lines 101-114: the blocking call
either fails (the error is converted and returned from the constructor) or
yields a response whose `content-length` header, when present and parsable,
becomes the declared length. -/
def HttpReader.new (callResult : Except UreqError ResponseM) :
    Except Error HttpReaderM :=
  match callResult with
  | .error e => .error (ureqErrorToError e)
  | .ok resp => .ok { length := resp.contentLengthHeader.bind parseU64 }

/-- `HttpReader::len` from src/http/ureq.rs lines 116-118. -/
def HttpReader.len (r : HttpReaderM) : Option Nat :=
  r.length

/-! ## Input stream arms (src/input.rs) -/

/-- `enum InputStream` from src/input.rs lines 37-49.  `Pipe` and `File`
carry the opened handle's metadata, `Http` the bridge reader. -/
inductive InputStreamM where
  | Stdin
  | Pipe (f : FileNode)
  | File (f : FileNode)
  | Http (r : HttpReaderM)
  deriving DecidableEq, Repr

/-- `File::open` (read-only) on the model: the path must resolve (ENOENT
otherwise); directories may be opened read-only on unix, so a directory node
is returned rather than rejected here. -/
def openFile (p : String) (fs : FS) : Except Error FileNode :=
  match statM fs p with
  | .error e => .error (.io e)
  | .ok none => .error Error.notFoundError
  | .ok (some n) => .ok n

/-- `Input::new` from src/input.rs lines 51-75, on an already-classified
path: `-` is stdin; a local path is opened, rejected with `dir_error` when
its metadata is a directory, and tagged `Pipe` or `File` by FIFO-ness; a URL
goes through `HttpReader::new` with the blocking call's result. -/
def Input.new (cp : ClioPathF) (callResult : Except UreqError ResponseM)
    (fs : FS) : Except Error InputStreamM :=
  match cp.path with
  | .Std _ => .ok .Stdin
  | .Local file_path =>
    match openFile file_path fs with
    | .error e => .error e
    | .ok file =>
      if file.isDirMeta then .error Error.dirError
      else if is_fifo file then .ok (.Pipe file)
      else .ok (.File file)
  | .Http _ => (HttpReader.new callResult).map InputStreamM.Http

/-- `Input::len` from src/input.rs lines 104-112.  `file.metadata()` on an
open handle is modelled as succeeding, so the `File` arm returns the
metadata size. -/
def Input.len : InputStreamM → Option Nat
  | .Stdin => none
  | .Pipe _ => none
  | .File f => some f.metadataLen
  | .Http h => HttpReader.len h

/-- `Input::is_std` from src/input.rs lines 168-170. -/
def Input.is_std : InputStreamM → Bool
  | .Stdin => true
  | _ => false

/-- `Input::is_tty` from src/input.rs lines 179-181: stdin, and stdin is
connected to a terminal (the terminal state is an explicit argument). -/
def Input.is_tty (s : InputStreamM) (stdinTerminal : Bool) : Bool :=
  Input.is_std s && stdinTerminal

/-- `Input::can_seek` from src/input.rs lines 185-187. -/
def Input.can_seek : InputStreamM → Bool
  | .File _ => true
  | _ => false

/-- What a `seek` call does per arm: forwarded to the underlying handle's
own seek, or failed with a library error (before touching the handle). -/
inductive SeekOutcome where
  | delegated
  | failed (e : Error)
  deriving DecidableEq, Repr

/-- `impl Seek for Input` from src/input.rs lines 204-212: `Pipe` and `File`
delegate to the handle's seek; every other arm returns
`Error::seek_error()`. -/
def Input.seekDispatch : InputStreamM → SeekOutcome
  | .Pipe _ => .delegated
  | .File _ => .delegated
  | _ => .failed Error.seekError

/-- Reading an `Input` to end (`io::copy` in `CachedInput::new`): regular
files yield their contents; stdin, FIFOs and HTTP bodies stream from outside
the filesystem and are explicit arguments. -/
def Input.drainBytes (s : InputStreamM) (stdinBytes pipeBytes httpBody : List Nat) :
    List Nat :=
  match s with
  | .Stdin => stdinBytes
  | .Pipe _ => pipeBytes
  | .File f =>
    match f.kind with
    | .regular c => c
    | _ => []
  | .Http _ => httpBody

/-! ## CachedInput (src/input.rs lines 232-265) -/

/-- `struct CachedInput`: the drained bytes in a `Cursor` with its position. -/
structure CachedInputM where
  data : List Nat
  pos : Nat
  deriving DecidableEq, Repr

/-- `CachedInput::new` from src/input.rs lines 247-265: open the input,
refuse to read when it is a terminal-connected stdin, otherwise drain it
fully into memory and reset the cursor position to 0.  (The capacity hint
taken from `len()` only pre-sizes the allocation and has no observable
effect.) -/
def CachedInput.new (cp : ClioPathF) (callResult : Except UreqError ResponseM)
    (fs : FS) (stdinTerminal : Bool) (stdinBytes pipeBytes httpBody : List Nat) :
    Except Error CachedInputM :=
  match Input.new cp callResult fs with
  | .error e => .error e
  | .ok source =>
    if Input.is_tty source stdinTerminal then
      .error (Error.otherErr "blocked reading from stdin because it is a tty")
    else
      .ok { data := Input.drainBytes source stdinBytes pipeBytes httpBody, pos := 0 }

/-! ## Output stream arms and factory (src/output.rs) -/

/-- `enum OutputStream` from src/output.rs lines 16-30.  `Pipe` and `File`
carry the path their handle was opened from, `AtomicFile` the temp file's
path, `Http` the bridge writer. -/
inductive OutputStreamM where
  | Stdout
  | Pipe (p : String)
  | File (p : String)
  | AtomicFile (tmp : String)
  | Http (w : HttpWriterM)
  deriving DecidableEq, Repr

/-- `Output::can_seek` from src/output.rs lines 238-243. -/
def Output.can_seek : OutputStreamM → Bool
  | .File _ => true
  | .AtomicFile _ => true
  | _ => false

/-- `impl Seek for Output` from src/output.rs lines 271-279: `File` and
`AtomicFile` delegate to the handle's seek; every other arm returns
`Error::seek_error()`. -/
def Output.seekDispatch : OutputStreamM → SeekOutcome
  | .File _ => .delegated
  | .AtomicFile _ => .delegated
  | _ => .failed Error.seekError

/-- Model of creating a new regular file at `p` (the `O_CREAT` case): the
parent directory must exist and be a directory (ENOENT / ENOTDIR
otherwise). -/
def createFile (p : String) (fs : FS) : Except Error (FileNode × FS) :=
  match safeParent p with
  | none => .error Error.notFoundError
  | some par =>
    match statM fs par with
    | .error e => .error (.io e)
    | .ok none => .error Error.notFoundError
    | .ok (some n) =>
      if n.isDirMeta then
        .ok (⟨.regular [], false⟩, insertFS fs p ⟨.regular [], false⟩)
      else .error Error.notDirError

/-- `open_rw` from src/output.rs lines 365-373:
read-write/create/truncate open, with a plain `File::create` fallback.
A directory fails (EISDIR, on both attempts); a FIFO opens untouched
(`O_TRUNC` has no effect on a FIFO); a read-only file fails (EACCES, on
both attempts); an existing regular file is truncated; a missing path is
created. -/
def open_rw (p : String) (fs : FS) : Except Error (FileNode × FS) :=
  match lookupFS fs p with
  | some ⟨.dir, _⟩ => .error Error.dirError
  | some ⟨.fifo, ro⟩ => .ok (⟨.fifo, ro⟩, fs)
  | some ⟨.regular _, ro⟩ =>
    if ro then .error Error.permissionError
    else .ok (⟨.regular [], false⟩, insertFS fs p ⟨.regular [], false⟩)
  | none => createFile p fs

/-- `File::set_len` on file contents: truncate or zero-extend to `n` bytes. -/
def setLenContent (content : List Nat) (n : Nat) : List Nat :=
  content.take n ++ List.replicate (n - content.length) 0

/-- `File::set_len` on the filesystem. -/
def setLenFS (fs : FS) (p : String) (n : Nat) : FS :=
  match lookupFS fs p with
  | some ⟨.regular content, ro⟩ => insertFS fs p ⟨.regular (setLenContent content n), ro⟩
  | _ => fs

/-- Modelled from the `tempfile` crate (external):
`Builder::new().prefix(".atomicwrite").tempfile_in(parent)` creates a fresh
named temp file inside `parent` whose name starts with `.atomicwrite`.  The
crate draws random suffixes and retries until the name is unused; the
randomness is abstracted as the `suffix` argument and the retry loop's
freshness guarantee becomes a failure when the chosen name is taken. -/
def tempfile_in (parent : String) (suffix : String) (fs : FS) :
    Except Error (String × FS) :=
  let tmp := parent ++ "/.atomicwrite" ++ suffix
  if lookupFS fs tmp = none then
    .ok (tmp, insertFS fs tmp ⟨.regular [], false⟩)
  else
    .error (Error.otherErr "temp name collision")

/-- `OutputStream::new` from src/output.rs lines 92-127: `-` is stdout; a
local path with the atomic flag (and not a FIFO) is validated and given a
temp file in its parent directory; a plain local path is opened read-write
(FIFOs tagged `Pipe`, otherwise `File` pre-sized by `set_len` when a size is
given); a URL goes through `HttpWriter::new`. -/
def OutputStream.new (cp : ClioPathF) (size : Option Nat) (suffix : String)
    (firstMsg : Except Error Unit) (fs : FS) :
    Except Error (OutputStreamM × FS) :=
  match cp.path with
  | .Std _ => .ok (.Stdout, fs)
  | .Local local_path =>
    if cp.atomic && !(cp.is_fifoP fs) then
      match assert_not_dir fs cp with
      | .error e => .error e
      | .ok _ =>
        match safeParent cp.pathStr with
        | some parent =>
          match assert_is_dir fs parent with
          | .error e => .error e
          | .ok _ =>
            match tempfile_in parent suffix fs with
            | .error e => .error e
            | .ok (tmp, fs1) => .ok (.AtomicFile tmp, fs1)
        | none => .error Error.notFoundError
    else
      match open_rw local_path fs with
      | .error e => .error e
      | .ok (file, fs1) =>
        if is_fifo file then .ok (.Pipe local_path, fs1)
        else
          match size with
          | some n => .ok (.File local_path, setLenFS fs1 local_path n)
          | none => .ok (.File local_path, fs1)
  | .Http url =>
    match HttpWriter.new url size firstMsg with
    | .error e => .error e
    | .ok w => .ok (.Http w, fs)

/-- `struct Output` from src/output.rs lines 60-64. -/
structure OutputM where
  path : ClioPathF
  stream : OutputStreamM
  deriving DecidableEq, Repr

/-- One `write` call's filesystem effect: bytes are appended to the backing
file of the `File`/`AtomicFile` arms (their handles sit at the end of the
freshly truncated/created file, so successive writes append); `Stdout`
writes, FIFO writes and `Http` writes leave the filesystem alone. -/
def appendFS (fs : FS) (p : String) (buf : List Nat) : FS :=
  match lookupFS fs p with
  | some ⟨.regular content, ro⟩ => insertFS fs p ⟨.regular (content ++ buf), ro⟩
  | _ => fs

def Output.writeFS (arm : OutputStreamM) (fs : FS) (buf : List Nat) : FS :=
  match arm with
  | .File p => appendFS fs p buf
  | .AtomicFile tmp => appendFS fs tmp buf
  | _ => fs

/-- A whole sequence of `write` calls. -/
def writesRun (arm : OutputStreamM) (fs : FS) (bufs : List (List Nat)) : FS :=
  bufs.foldl (Output.writeFS arm) fs

/-- Modelled from the `tempfile` crate (external): dropping a
`NamedTempFile` deletes the temp file; dropping any other output arm only
closes its handle (the HTTP worker's outcome is discarded). -/
def Output.dropFS (arm : OutputStreamM) (fs : FS) : FS :=
  match arm with
  | .AtomicFile tmp => eraseFS fs tmp
  | _ => fs

/-- Modelled from the `tempfile` crate (external): `NamedTempFile::persist`
renames the temp file over the destination — POSIX `rename`, atomically
replacing any existing file. -/
def persistFS (fs : FS) (tmp dest : String) : Except Error FS :=
  match lookupFS fs tmp with
  | some n => .ok (insertFS (eraseFS fs tmp) dest n)
  | none => .error Error.notFoundError

/-- The effects `Output::finish` (src/output.rs lines 182-195) performs, in
order: always the initial `self.flush()` first, then the per-arm action. -/
inductive FinishStep where
  | flush
  | syncData
  | persistTmp
  | closeWriteAndAwait
  deriving DecidableEq, Repr

def Output.finishSteps : OutputStreamM → List FinishStep
  | .Stdout => [.flush]
  | .Pipe _ => [.flush]
  | .File _ => [.flush, .syncData]
  | .AtomicFile _ => [.flush, .persistTmp]
  | .Http _ => [.flush, .closeWriteAndAwait]

/-- `Output::finish` from src/output.rs lines 182-195: flush first (a flush
failure aborts), then per arm: `Stdout`/`Pipe` return `Ok`, `File` forces
`sync_data` (its outcome is the explicit `syncResult`), `AtomicFile`
persists the temp file over `self.path`, `Http` runs `HttpWriter::finish`
with the worker's terminal result. -/
def Output.finish (o : OutputM) (fs : FS) (flushResult : Except Error Unit)
    (syncResult : Except Error Unit) (workerTerminal : Except Error Unit) :
    Except Error FS :=
  match flushResult with
  | .error e => .error e
  | .ok _ =>
    match o.stream with
    | .Stdout => .ok fs
    | .Pipe _ => .ok fs
    | .File _ =>
      match syncResult with
      | .error e => .error e
      | .ok _ => .ok fs
    | .AtomicFile tmp => persistFS fs tmp o.path.pathStr
    | .Http w =>
      match HttpWriter.finish w workerTerminal with
      | .error e => .error e
      | .ok _ => .ok fs

/-! ## OutputPath validation (src/output.rs lines 281-309)

The `#[cfg(target_os = "linux")]` early trailing-slash check is part of the
model (the model targets linux, matching the errno constants above). -/

/-- `OutputPath::new` from src/output.rs lines 281-309, on an
already-classified path. -/
def OutputPath.new (cp0 : ClioPathF) (fs : FS) : Except Error ClioPathF :=
  let path := cp0.with_direction .Out
  if path.is_local then
    if isFilePath fs path.pathStr && !path.atomic then
      match assert_writeable fs path.pathStr with
      | .error e => .error e
      | .ok _ => .ok path
    else
      if path.endsWithSlash then .error Error.dirError
      else
        match assert_not_dir fs path with
        | .error e => .error e
        | .ok _ =>
          match safeParent path.pathStr with
          | some parent =>
            match assert_is_dir fs parent with
            | .error e => .error e
            | .ok _ =>
              match assert_writeable fs parent with
              | .error e => .error e
              | .ok _ => .ok path
          | none => .error Error.notFoundError
  else .ok path

/-! ## Helper lemmas about the filesystem map -/

theorem lookupFS_eraseFS_self (fs : FS) (p : String) :
    lookupFS (eraseFS fs p) p = none := by
  induction fs with
  | nil => rfl
  | cons e rest ih =>
    obtain ⟨q, n⟩ := e
    by_cases h : q = p
    · simp [eraseFS, h, ih]
    · simp [eraseFS, lookupFS, h, ih]

theorem lookupFS_eraseFS_ne (fs : FS) (p q : String) (h : q ≠ p) :
    lookupFS (eraseFS fs p) q = lookupFS fs q := by
  induction fs with
  | nil => rfl
  | cons e rest ih =>
    obtain ⟨r, n⟩ := e
    by_cases hr : r = p
    · subst hr
      have hrq : r ≠ q := fun hh => h hh.symm
      have h1 : eraseFS ((r, n) :: rest) r = eraseFS rest r := by
        simp [eraseFS]
      rw [h1, ih]
      simp [lookupFS, hrq]
    · have h1 : eraseFS ((r, n) :: rest) p = (r, n) :: eraseFS rest p := by
        simp [eraseFS, hr]
      rw [h1]
      by_cases hq : r = q
      · simp [lookupFS, hq]
      · simp [lookupFS, hq, ih]

theorem lookupFS_insertFS_self (fs : FS) (p : String) (n : FileNode) :
    lookupFS (insertFS fs p n) p = some n := by
  simp [insertFS, lookupFS]

theorem lookupFS_insertFS_ne (fs : FS) (p q : String) (n : FileNode) (h : q ≠ p) :
    lookupFS (insertFS fs p n) q = lookupFS fs q := by
  have hpq : p ≠ q := fun hh => h hh.symm
  simp only [insertFS, lookupFS, if_neg hpq]
  exact lookupFS_eraseFS_ne fs p q h

theorem lookupFS_appendFS_ne (fs : FS) (p q : String) (buf : List Nat)
    (h : q ≠ p) : lookupFS (appendFS fs p buf) q = lookupFS fs q := by
  unfold appendFS
  match hm : lookupFS fs p with
  | some ⟨.regular content, ro⟩ => exact lookupFS_insertFS_ne fs p q _ h
  | some ⟨.fifo, ro⟩ => rfl
  | some ⟨.dir, ro⟩ => rfl
  | none => rfl

theorem open_rw_nonfifo (p : String) (fs fs1 : FS) (file : FileNode)
    (h : open_rw p fs = .ok (file, fs1)) (hf : is_fifo file = false) :
    file = ⟨.regular [], false⟩ ∧ lookupFS fs1 p = some ⟨.regular [], false⟩ := by
  unfold open_rw at h
  split at h
  · exact absurd h (by simp)
  · simp only [Except.ok.injEq, Prod.mk.injEq] at h
    obtain ⟨hfile, -⟩ := h
    rw [← hfile] at hf
    simp [is_fifo] at hf
  · split at h
    · exact absurd h (by simp)
    · simp only [Except.ok.injEq, Prod.mk.injEq] at h
      obtain ⟨hfile, hfs⟩ := h
      subst hfile
      subst hfs
      exact ⟨rfl, lookupFS_insertFS_self _ _ _⟩
  · unfold createFile at h
    split at h
    · exact absurd h (by simp)
    · split at h
      · exact absurd h (by simp)
      · exact absurd h (by simp)
      · split at h
        · simp only [Except.ok.injEq, Prod.mk.injEq] at h
          obtain ⟨hfile, hfs⟩ := h
          subst hfile
          subst hfs
          exact ⟨rfl, lookupFS_insertFS_self _ _ _⟩
        · exact absurd h (by simp)

theorem open_rw_fifo (p : String) (fs fs1 : FS) (file : FileNode)
    (h : open_rw p fs = .ok (file, fs1)) (hf : is_fifo file = true) :
    fs1 = fs := by
  unfold open_rw at h
  split at h
  · exact absurd h (by simp)
  · simp only [Except.ok.injEq, Prod.mk.injEq] at h
    exact h.2.symm
  · split at h
    · exact absurd h (by simp)
    · simp only [Except.ok.injEq, Prod.mk.injEq] at h
      obtain ⟨hfile, -⟩ := h
      rw [← hfile] at hf
      simp [is_fifo] at hf
  · unfold createFile at h
    split at h
    · exact absurd h (by simp)
    · split at h
      · exact absurd h (by simp)
      · exact absurd h (by simp)
      · split at h
        · simp only [Except.ok.injEq, Prod.mk.injEq] at h
          obtain ⟨hfile, -⟩ := h
          rw [← hfile] at hf
          simp [is_fifo] at hf
        · exact absurd h (by simp)

theorem isFilePath_slash (fs : FS) (p : String) (h : ends_with_slash p = true) :
    isFilePath fs p = false := by
  unfold isFilePath statM
  rw [if_pos h]
  cases hl : lookupFS fs (stripTrailingSlashes p) with
  | none => rfl
  | some n =>
    obtain ⟨k, ro⟩ := n
    cases k <;> simp [FileNode.isDirMeta]

theorem OutputStream_new_local_atomic_eq (dest suffix : String)
    (size : Option Nat) (fm : Except Error Unit) (fs : FS) :
    OutputStream.new ⟨.Local dest, true⟩ size suffix fm fs =
      (if !(ClioPathF.is_fifoP ⟨.Local dest, true⟩ fs) then
        (match assert_not_dir fs ⟨.Local dest, true⟩ with
         | .error e => .error e
         | .ok _ =>
           match safeParent dest with
           | some parent =>
             (match assert_is_dir fs parent with
              | .error e => .error e
              | .ok _ =>
                match tempfile_in parent suffix fs with
                | .error e => .error e
                | .ok (tmp2, fs2) => .ok (.AtomicFile tmp2, fs2))
           | none => .error Error.notFoundError)
      else
        (match open_rw dest fs with
         | .error e => .error e
         | .ok (file, fs2) =>
           if is_fifo file then .ok (.Pipe dest, fs2)
           else
             match size with
             | some n => .ok (.File dest, setLenFS fs2 dest n)
             | none => .ok (.File dest, fs2))) := by
  cases size <;> rfl

theorem lookupFS_writesRun_ne (arm : OutputStreamM) (fs : FS)
    (bufs : List (List Nat)) (q : String)
    (h : ∀ t, arm = OutputStreamM.AtomicFile t → q ≠ t)
    (h2 : ∀ t, arm = OutputStreamM.File t → q ≠ t) :
    lookupFS (writesRun arm fs bufs) q = lookupFS fs q := by
  induction bufs generalizing fs with
  | nil => rfl
  | cons b rest ih =>
    rw [writesRun, List.foldl_cons, ← writesRun, ih]
    unfold Output.writeFS
    match harm : arm with
    | .Stdout => rfl
    | .Pipe _ => rfl
    | .File t => exact lookupFS_appendFS_ne fs t q b (h2 t rfl)
    | .AtomicFile t => exact lookupFS_appendFS_ne fs t q b (h t rfl)
    | .Http _ => rfl

end Clio

namespace Clio

/-! # Theorems for the claims -/

/-! ## Claim C4 -/

/-- Claim C4: classification applies its rules in order: an HTTP/HTTPS-looking
string is parsed as a URL, failing with an `Http { code: 400 }` malformed-URL
error when parsing fails or the string is not valid UTF-8; otherwise exactly
`"-"` gives the `Std` variant with no direction; otherwise the `Local` variant. -/
theorem C4_path_classification (parseToUrl : String → Except UrlParseErrorM Url)
    (s : OsStrM) :
    (is_http s = true → s.validUtf8 = false →
      ClioPath.new parseToUrl s = .error (.http 400 "url is not a valid UTF8 string")) ∧
    (∀ e, is_http s = true → s.validUtf8 = true → parseToUrl s.lossy = .error e →
      ClioPath.new parseToUrl s = .error (.http 400 e.msg)) ∧
    (∀ u, is_http s = true → s.validUtf8 = true → parseToUrl s.lossy = .ok u →
      ClioPath.new parseToUrl s = .ok ⟨.Http u, false⟩) ∧
    (is_http s = false → s.eqStr "-" = true →
      ClioPath.new parseToUrl s = .ok ⟨.Std none, false⟩) ∧
    (is_http s = false → s.eqStr "-" = false →
      ClioPath.new parseToUrl s = .ok ⟨.Local s, false⟩) := by
  refine ⟨?_, ?_, ?_, ?_, ?_⟩
  · intro hh hv
    simp [ClioPath.new, ClioPathEnum.new, try_to_url, hh, hv, Except.map]
  · intro e hh hv hp
    simp [ClioPath.new, ClioPathEnum.new, try_to_url, hh, hv, hp, Except.map]
  · intro u hh hv hp
    simp [ClioPath.new, ClioPathEnum.new, try_to_url, hh, hv, hp, Except.map]
  · intro hh hd
    simp [ClioPath.new, ClioPathEnum.new, hh, hd, Except.map]
  · intro hh hd
    simp [ClioPath.new, ClioPathEnum.new, hh, hd, Except.map]

/-- Witness for C4 at concrete inputs: an HTTP-looking argument whose bytes
are not valid UTF-8 is rejected with the structured 400 error. -/
theorem C4_path_classification_witness :
    ClioPath.new (fun s => Except.ok ⟨s⟩) ⟨"http://a", false⟩ =
      .error (.http 400 "url is not a valid UTF8 string") :=
  (C4_path_classification (fun s => Except.ok ⟨s⟩) ⟨"http://a", false⟩).1
    (by decide) rfl

/-! ## Claim C5 -/

/-- Counterexample to claim C5 as stated: a seek on the `Pipe` arm of
`Input` does not return the not-seekable error — src/input.rs line 207
delegates it to the underlying file handle. -/
theorem C5_seek_counterexample :
    Input.seekDispatch (.Pipe ⟨.fifo, false⟩) = SeekOutcome.delegated ∧
    SeekOutcome.delegated ≠ SeekOutcome.failed Error.seekError :=
  ⟨rfl, by decide⟩

/-- Claim C5 (amended): `can_seek()` is true only for the `File` arm of
`Input` and only for the `File`/`AtomicFile` arms of `Output`; a seek on
`Output`'s `Stdout`, `Pipe` and `Http` arms and on `Input`'s `Stdin` and
`Http` arms returns the not-seekable error, but a seek on `Input`'s `Pipe`
arm is delegated to the underlying file handle rather than rejected. -/
theorem C5_seekability (f : FileNode) (fp : String) (r : HttpReaderM)
    (w : HttpWriterM) (tmp : String) :
    Input.can_seek (.File f) = true ∧
    Input.can_seek .Stdin = false ∧
    Input.can_seek (.Pipe f) = false ∧
    Input.can_seek (.Http r) = false ∧
    Output.can_seek (.File fp) = true ∧
    Output.can_seek (.AtomicFile tmp) = true ∧
    Output.can_seek .Stdout = false ∧
    Output.can_seek (.Pipe fp) = false ∧
    Output.can_seek (.Http w) = false ∧
    Input.seekDispatch .Stdin = .failed Error.seekError ∧
    Input.seekDispatch (.Http r) = .failed Error.seekError ∧
    Input.seekDispatch (.Pipe f) = .delegated ∧
    Input.seekDispatch (.File f) = .delegated ∧
    Output.seekDispatch .Stdout = .failed Error.seekError ∧
    Output.seekDispatch (.Pipe fp) = .failed Error.seekError ∧
    Output.seekDispatch (.Http w) = .failed Error.seekError ∧
    Output.seekDispatch (.File fp) = .delegated ∧
    Output.seekDispatch (.AtomicFile tmp) = .delegated :=
  ⟨rfl, rfl, rfl, rfl, rfl, rfl, rfl, rfl, rfl, rfl, rfl, rfl, rfl, rfl, rfl,
    rfl, rfl, rfl⟩

/-- Witness for C5 at concrete arms. -/
theorem C5_seekability_witness :
    Input.can_seek (.File ⟨.regular [], false⟩) = true ∧
    Output.seekDispatch .Stdout = .failed Error.seekError :=
  ⟨(C5_seekability ⟨.regular [], false⟩ "f" ⟨none⟩ ⟨"http://a", none⟩ "t").1,
    (C5_seekability ⟨.regular [], false⟩ "f" ⟨none⟩ ⟨"http://a", none⟩
      "t").2.2.2.2.2.2.2.2.2.2.2.2.2.1⟩

/-! ## Claim C6 -/

/-- Claim C6: `Input::len` returns the file metadata size for the `File`
arm, the declared content length the HTTP bridge extracted from the
`content-length` header for the `Http` arm, and `None` for `Stdin` and
`Pipe`. -/
theorem C6_input_len (f : FileNode) (r : HttpReaderM) (resp : ResponseM) :
    Input.len (.File f) = some f.metadataLen ∧
    (HttpReader.new (.ok resp) = .ok r →
      Input.len (.Http r) = resp.contentLengthHeader.bind parseU64) ∧
    Input.len .Stdin = none ∧
    Input.len (.Pipe f) = none := by
  refine ⟨rfl, ?_, rfl, rfl⟩
  intro h
  simp only [HttpReader.new, Except.ok.injEq] at h
  subst h
  rfl

/-- Witness for C6 at a concrete response: a `content-length: 3` header
becomes a declared length of 3. -/
theorem C6_input_len_witness :
    Input.len (.Http ⟨some 3⟩) =
      (ResponseM.mk (some "3")).contentLengthHeader.bind parseU64 :=
  (C6_input_len ⟨.regular [], false⟩ ⟨some 3⟩ ⟨some "3"⟩).2.1 rfl

/-! ## Claim C3 -/

/-- Counterexample to claim C3 as stated: the `RemoteReader` constructor in
the ureq backend (src/http/ureq.rs lines 101-114) performs one blocking HTTP
call on the constructing thread; it spawns no worker and never blocks on a
zero-capacity rendezvous channel. -/
theorem C3_reader_counterexample :
    HttpReader.newEvents.contains SyncEvent.rendezvousRecv = false ∧
    HttpReader.newEvents = [SyncEvent.blockingCall] ∧
    HttpWriter.newEvents.contains SyncEvent.rendezvousRecv = true :=
  ⟨rfl, rfl, rfl⟩

/-- Claim C3 (amended): for a URL whose connection fails before any body
transfer, each constructor itself returns `Err` and never a half-built
value: `HttpWriter::new` blocks on the zero-capacity rendezvous channel and
propagates a terminal failure arriving there as its own error, returning a
writer only on the first-body-read signal; `HttpReader::new` (ureq backend)
makes the blocking call inside the constructor, with no channel, and
propagates its failure as its own error. -/
theorem C3_constructor_failure (url : String) (size : Option Nat) (e : Error)
    (ue : UreqError) :
    HttpWriter.new url size (.error e) = .error e ∧
    HttpWriter.new url size (.ok ()) = .ok ⟨url, size⟩ ∧
    HttpReader.new (.error ue) = .error (ureqErrorToError ue) ∧
    HttpWriter.newEvents.contains SyncEvent.rendezvousRecv = true ∧
    HttpReader.newEvents.contains SyncEvent.rendezvousRecv = false :=
  ⟨rfl, rfl, rfl, rfl, rfl⟩

/-- Witness for C3 at a concrete failure: a DNS-style transport failure is
returned from both constructors. -/
theorem C3_constructor_failure_witness :
    HttpWriter.new "http://bad.invalid" none (.error (.http 499 "dns")) =
      .error (.http 499 "dns") ∧
    HttpReader.new (.error (.transport "dns")) = .error (.http 499 "dns") :=
  ⟨(C3_constructor_failure "http://bad.invalid" none (.http 499 "dns")
      (.transport "dns")).1,
    (C3_constructor_failure "http://bad.invalid" none (.http 499 "dns")
      (.transport "dns")).2.2.1⟩

/-! ## Claim C1 -/

/-- Claim C1: `Output::finish` first flushes (a flush failure aborts) and
then acts per arm: `Stdout` and `Pipe` do nothing further and return `Ok`;
`File` forces the durability sync; `AtomicFile` renames the temp file over
the destination path, replacing any existing file there; `Http` closes the
write side of the bridge and returns the worker's final success or
failure. -/
theorem C1_finish_contract (p : ClioPathF) (fp tmp : String) (w : HttpWriterM)
    (fs : FS) (n : FileNode) (sync wt : Except Error Unit) (e : Error) :
    (∀ s : OutputStreamM, (Output.finishSteps s).head? = some FinishStep.flush) ∧
    (∀ s, Output.finish ⟨p, s⟩ fs (.error e) sync wt = .error e) ∧
    Output.finish ⟨p, .Stdout⟩ fs (.ok ()) sync wt = .ok fs ∧
    Output.finish ⟨p, .Pipe fp⟩ fs (.ok ()) sync wt = .ok fs ∧
    Output.finishSteps .Stdout = [.flush] ∧
    Output.finishSteps (.Pipe fp) = [.flush] ∧
    Output.finish ⟨p, .File fp⟩ fs (.ok ()) (.ok ()) wt = .ok fs ∧
    Output.finish ⟨p, .File fp⟩ fs (.ok ()) (.error e) wt = .error e ∧
    Output.finishSteps (.File fp) = [.flush, .syncData] ∧
    (lookupFS fs tmp = some n →
      ∃ fs2, Output.finish ⟨p, .AtomicFile tmp⟩ fs (.ok ()) sync wt = .ok fs2 ∧
        lookupFS fs2 p.pathStr = some n ∧
        (tmp ≠ p.pathStr → lookupFS fs2 tmp = none) ∧
        (∀ q, q ≠ tmp → q ≠ p.pathStr → lookupFS fs2 q = lookupFS fs q)) ∧
    Output.finish ⟨p, .Http w⟩ fs (.ok ()) sync (.ok ()) = .ok fs ∧
    Output.finish ⟨p, .Http w⟩ fs (.ok ()) sync (.error e) = .error e ∧
    Output.finishSteps (.Http w) = [.flush, .closeWriteAndAwait] := by
  refine ⟨?_, ?_, rfl, rfl, rfl, rfl, rfl, rfl, rfl, ?_, rfl, rfl, rfl⟩
  · intro s
    cases s <;> rfl
  · intro s
    rfl
  · intro h
    refine ⟨insertFS (eraseFS fs tmp) p.pathStr n, ?_, ?_, ?_, ?_⟩
    · simp [Output.finish, persistFS, h]
    · exact lookupFS_insertFS_self _ _ _
    · intro hne
      rw [lookupFS_insertFS_ne _ _ _ _ hne, lookupFS_eraseFS_self]
    · intro q hq1 hq2
      rw [lookupFS_insertFS_ne _ _ _ _ hq2, lookupFS_eraseFS_ne _ _ _ hq1]

/-- Witness for C1 at a concrete atomic output: finishing renames the temp
file `"d/.t"` (holding byte `7`) over the destination `"d/out"`. -/
theorem C1_finish_contract_witness :
    ∃ fs2,
      Output.finish ⟨⟨.Local "d/out", true⟩, .AtomicFile "d/.t"⟩
          [("d/.t", ⟨.regular [7], false⟩)] (.ok ()) (.ok ()) (.ok ()) = .ok fs2 ∧
      lookupFS fs2 (ClioPathF.pathStr ⟨.Local "d/out", true⟩) =
        some ⟨.regular [7], false⟩ ∧
      ("d/.t" ≠ ClioPathF.pathStr ⟨.Local "d/out", true⟩ →
        lookupFS fs2 "d/.t" = none) ∧
      (∀ q, q ≠ "d/.t" → q ≠ ClioPathF.pathStr ⟨.Local "d/out", true⟩ →
        lookupFS fs2 q = lookupFS [("d/.t", ⟨.regular [7], false⟩)] q) :=
  (C1_finish_contract ⟨.Local "d/out", true⟩ "f" "d/.t" ⟨"u", none⟩
      [("d/.t", ⟨.regular [7], false⟩)] ⟨.regular [7], false⟩ (.ok ()) (.ok ())
      (.http 500 "x")).2.2.2.2.2.2.2.2.2.1 (by decide)

/-! ## Claim C9 -/

/-- Claim C9: opening a local non-FIFO path for output with a declared size
sets the opened file's length to exactly that size, via `set_len`, before
any write (the file's contents right after opening are `size` zero bytes);
when the path is a FIFO no length is set and the filesystem is untouched. -/
theorem C9_output_set_len (p suffix : String) (n : Nat)
    (fm : Except Error Unit) (fs : FS) :
    (∀ q fs2,
      OutputStream.new ⟨.Local p, false⟩ (some n) suffix fm fs = .ok (.File q, fs2) →
      q = p ∧ lookupFS fs2 p = some ⟨.regular (setLenContent [] n), false⟩ ∧
        (setLenContent [] n).length = n) ∧
    (∀ q fs2,
      OutputStream.new ⟨.Local p, false⟩ (some n) suffix fm fs = .ok (.Pipe q, fs2) →
      q = p ∧ fs2 = fs) := by
  have hred : OutputStream.new ⟨.Local p, false⟩ (some n) suffix fm fs =
      (match open_rw p fs with
       | .error e => .error e
       | .ok (file, fs1) =>
         if is_fifo file then .ok (.Pipe p, fs1)
         else .ok (.File p, setLenFS fs1 p n)) := rfl
  constructor
  · intro q fs2 h
    rw [hred] at h
    rcases hrw : open_rw p fs with e | ⟨file, fs1⟩ <;> rw [hrw] at h <;>
      dsimp only at h
    · exact absurd h (by simp)
    · by_cases hf : is_fifo file = true
      · rw [if_pos hf] at h
        exact absurd h (by simp)
      · rw [Bool.not_eq_true] at hf
        rw [if_neg (by simp [hf])] at h
        simp only [Except.ok.injEq, Prod.mk.injEq, OutputStreamM.File.injEq] at h
        obtain ⟨hq, hfs2⟩ := h
        obtain ⟨-, hlook⟩ := open_rw_nonfifo p fs fs1 file hrw hf
        subst hq
        refine ⟨rfl, ?_, ?_⟩
        · rw [← hfs2]
          simp only [setLenFS, hlook]
          exact lookupFS_insertFS_self _ _ _
        · simp [setLenContent]
  · intro q fs2 h
    rw [hred] at h
    rcases hrw : open_rw p fs with e | ⟨file, fs1⟩ <;> rw [hrw] at h <;>
      dsimp only at h
    · exact absurd h (by simp)
    · by_cases hf : is_fifo file = true
      · rw [if_pos hf] at h
        simp only [Except.ok.injEq, Prod.mk.injEq, OutputStreamM.Pipe.injEq] at h
        obtain ⟨hq, hfs2⟩ := h
        subst hq
        exact ⟨rfl, hfs2 ▸ open_rw_fifo p fs fs1 file hrw hf⟩
      · rw [Bool.not_eq_true] at hf
        rw [if_neg (by simp [hf])] at h
        exact absurd h (by simp)

/-- Witness for C9 at a concrete path: an existing 3-byte file at `"x"`,
opened for output with declared size 10, is truncated and pre-sized to
exactly 10 (zero) bytes. -/
theorem C9_output_set_len_witness :
    "x" = "x" ∧
    lookupFS
        (setLenFS
          (insertFS [("x", ⟨.regular [1, 2, 3], false⟩), (".", ⟨.dir, false⟩)]
            "x" ⟨.regular [], false⟩) "x" 10) "x" =
      some ⟨.regular (setLenContent [] 10), false⟩ ∧
    (setLenContent [] 10).length = 10 :=
  (C9_output_set_len "x" "s" 10 (.ok ())
      [("x", ⟨.regular [1, 2, 3], false⟩), (".", ⟨.dir, false⟩)]).1 "x" _ rfl

/-! ## Claim C10 -/

/-- Claim C10: `CachedInput::new` returns an error whenever the resolved
input is standard input connected to a terminal; for every other
successfully opened input it drains the stream fully into memory and leaves
the cursor at offset zero. -/
theorem C10_cached_input (cp : ClioPathF) (cr : Except UreqError ResponseM)
    (fs : FS) (term : Bool) (sb pb hb : List Nat) (s : InputStreamM)
    (h : Input.new cp cr fs = .ok s) :
    Input.is_tty s term = (Input.is_std s && term) ∧
    (Input.is_tty s term = true →
      CachedInput.new cp cr fs term sb pb hb =
        .error (Error.otherErr "blocked reading from stdin because it is a tty")) ∧
    (Input.is_tty s term = false →
      CachedInput.new cp cr fs term sb pb hb =
        .ok ⟨Input.drainBytes s sb pb hb, 0⟩) := by
  refine ⟨rfl, ?_, ?_⟩ <;> intro ht <;> simp [CachedInput.new, h, ht]

/-- Witness for C10 at concrete inputs: stdin on a terminal is refused; the
same stdin off a terminal is drained to its bytes with the cursor at 0. -/
theorem C10_cached_input_witness :
    CachedInput.new ⟨.Std none, false⟩ (.ok ⟨none⟩) [] true [1, 2] [] [] =
      .error (Error.otherErr "blocked reading from stdin because it is a tty") ∧
    CachedInput.new ⟨.Std none, false⟩ (.ok ⟨none⟩) [] false [1, 2] [] [] =
      .ok ⟨[1, 2], 0⟩ :=
  ⟨(C10_cached_input ⟨.Std none, false⟩ (.ok ⟨none⟩) [] true [1, 2] [] []
      .Stdin rfl).2.1 rfl,
    (C10_cached_input ⟨.Std none, false⟩ (.ok ⟨none⟩) [] false [1, 2] [] []
      .Stdin rfl).2.2 rfl⟩

/-! ## Claim C8 -/

/-- Counterexample to claim C8 as stated: validating the output path
`"newdir/"` over the empty filesystem fails with `dir_error` (EISDIR, "Is a
directory"), which is neither the not-a-directory error nor the not-found
error the claim announces. -/
theorem C8_slash_counterexample :
    OutputPath.new ⟨.Local "newdir/", false⟩ [] = .error Error.dirError ∧
    Error.dirError ≠ Error.notDirError ∧
    Error.dirError ≠ Error.notFoundError :=
  ⟨rfl, by decide, by decide⟩

/-- Claim C8 (amended): opening a local path that is a directory for input
fails with the is-a-directory error; validating a local path ending in a
path separator for output fails with the is-a-directory error (EISDIR) —
not a not-a-directory/not-found error — even when nothing exists at that
path yet (the trailing-slash rejection holds over any filesystem state). -/
theorem C8_directory_rejection (p : String) (ro a : Bool)
    (cr : Except UreqError ResponseM) (fs : FS) :
    (statM fs p = .ok (some ⟨.dir, ro⟩) →
      Input.new ⟨.Local p, a⟩ cr fs = .error Error.dirError) ∧
    (ends_with_slash p = true →
      OutputPath.new ⟨.Local p, a⟩ fs = .error Error.dirError) := by
  constructor
  · intro hstat
    simp [Input.new, openFile, hstat, FileNode.isDirMeta]
  · intro h
    have hf := isFilePath_slash fs p h
    simp [OutputPath.new, ClioPathF.with_direction, ClioPathF.is_local,
      ClioPathF.pathStr, ClioPathF.endsWithSlash, hf, h]

/-- Witness for C8 at a concrete directory: opening the directory `"d"` for
input fails with the is-a-directory error. -/
theorem C8_directory_rejection_witness :
    Input.new ⟨.Local "d", false⟩ (.ok ⟨none⟩) [("d", ⟨.dir, false⟩)] =
      .error Error.dirError :=
  (C8_directory_rejection "d" false false (.ok ⟨none⟩)
      [("d", ⟨.dir, false⟩)]).1 rfl

/-! ## Claim C2 -/

/-- Claim C2: opening a local path `dest` for output with the atomic flag
set (and `dest` not a FIFO, or the open would not produce an `AtomicFile`)
creates a fresh temp file named `.atomicwrite…` in `dest`'s parent
directory; all writes go to that temp file and to nothing else; and dropping
the output without calling `finish()` leaves the prior contents of `dest` —
or its absence — completely unchanged.  (The rename into place is performed
only by `finish()`, proved as part of C1.) -/
theorem C2_atomic_isolation (dest suffix : String) (size : Option Nat)
    (fm : Except Error Unit) (fs fs1 : FS) (tmp : String)
    (bufs : List (List Nat))
    (hok : OutputStream.new ⟨.Local dest, true⟩ size suffix fm fs =
      .ok (.AtomicFile tmp, fs1)) :
    (∃ par, safeParent dest = some par ∧
      tmp = par ++ "/.atomicwrite" ++ suffix) ∧
    lookupFS fs tmp = none ∧
    (∀ q, q ≠ tmp →
      lookupFS (writesRun (.AtomicFile tmp) fs1 bufs) q = lookupFS fs1 q) ∧
    lookupFS
        (Output.dropFS (.AtomicFile tmp) (writesRun (.AtomicFile tmp) fs1 bufs))
        dest =
      lookupFS fs dest := by
  rw [OutputStream_new_local_atomic_eq] at hok
  by_cases hfifo : ClioPathF.is_fifoP ⟨.Local dest, true⟩ fs = true
  · rw [hfifo] at hok
    rw [if_neg (by simp)] at hok
    rcases hrw : open_rw dest fs with e | ⟨file, fs2⟩ <;> rw [hrw] at hok <;>
      dsimp only at hok
    · exact absurd hok (by simp)
    · by_cases hf : is_fifo file = true
      · rw [if_pos hf] at hok
        exact absurd hok (by simp)
      · rw [Bool.not_eq_true] at hf
        rw [if_neg (by simp [hf])] at hok
        cases size <;> dsimp only at hok <;> exact absurd hok (by simp)
  · rw [Bool.not_eq_true] at hfifo
    rw [hfifo] at hok
    rw [if_pos (by simp)] at hok
    rcases hnd : assert_not_dir fs ⟨.Local dest, true⟩ with e | u <;>
      rw [hnd] at hok <;> dsimp only at hok
    · exact absurd hok (by simp)
    · rcases hsp : safeParent dest with _ | par <;> rw [hsp] at hok <;>
        dsimp only at hok
      · exact absurd hok (by simp)
      · rcases hid : assert_is_dir fs par with e | u2 <;> rw [hid] at hok <;>
          dsimp only at hok
        · exact absurd hok (by simp)
        · by_cases hfresh : lookupFS fs (par ++ "/.atomicwrite" ++ suffix) = none
          · have htf : tempfile_in par suffix fs =
                .ok (par ++ "/.atomicwrite" ++ suffix,
                  insertFS fs (par ++ "/.atomicwrite" ++ suffix)
                    ⟨.regular [], false⟩) := by
              simp [tempfile_in, hfresh]
            rw [htf] at hok
            dsimp only at hok
            simp only [Except.ok.injEq, Prod.mk.injEq,
              OutputStreamM.AtomicFile.injEq] at hok
            obtain ⟨htmp, hfs1⟩ := hok
            rw [htmp] at hfresh hfs1
            subst hfs1
            refine ⟨⟨par, rfl, htmp.symm⟩, hfresh, ?_, ?_⟩
            · intro q hq
              exact lookupFS_writesRun_ne _ _ bufs q
                (fun t ht => by injection ht with hh; exact hh ▸ hq)
                (fun t ht => OutputStreamM.noConfusion ht)
            · show lookupFS
                (eraseFS
                  (writesRun (.AtomicFile tmp)
                    (insertFS fs tmp ⟨.regular [], false⟩) bufs) tmp)
                dest = lookupFS fs dest
              by_cases hdt : dest = tmp
              · rw [hdt, lookupFS_eraseFS_self]
                exact hfresh.symm
              · rw [lookupFS_eraseFS_ne _ _ _ hdt,
                  lookupFS_writesRun_ne _ _ bufs dest
                    (fun t ht => by injection ht with hh; exact hh ▸ hdt)
                    (fun t ht => OutputStreamM.noConfusion ht),
                  lookupFS_insertFS_ne _ _ _ _ hdt]
          · have htf : tempfile_in par suffix fs =
                .error (Error.otherErr "temp name collision") := by
              simp [tempfile_in, hfresh]
            rw [htf] at hok
            dsimp only at hok
            exact absurd hok (by simp)

/-- Witness for C2 at a concrete atomic open: destination `"d/out"` inside
directory `"d"`, temp suffix `"X"`, two partial writes, then drop — the
destination's absence is unchanged. -/
theorem C2_atomic_isolation_witness :
    (∃ par, safeParent "d/out" = some par ∧
      "d/.atomicwriteX" = par ++ "/.atomicwrite" ++ "X") ∧
    lookupFS [("d", FileNode.mk .dir false)] "d/.atomicwriteX" = none ∧
    (∀ q, q ≠ "d/.atomicwriteX" →
      lookupFS
          (writesRun (.AtomicFile "d/.atomicwriteX")
            (insertFS [("d", ⟨.dir, false⟩)] "d/.atomicwriteX"
              ⟨.regular [], false⟩) [[1], [2]]) q =
        lookupFS
          (insertFS [("d", ⟨.dir, false⟩)] "d/.atomicwriteX"
            ⟨.regular [], false⟩) q) ∧
    lookupFS
        (Output.dropFS (.AtomicFile "d/.atomicwriteX")
          (writesRun (.AtomicFile "d/.atomicwriteX")
            (insertFS [("d", ⟨.dir, false⟩)] "d/.atomicwriteX"
              ⟨.regular [], false⟩) [[1], [2]])) "d/out" =
      lookupFS [("d", FileNode.mk .dir false)] "d/out" :=
  C2_atomic_isolation "d/out" "X" none (.ok ()) [("d", ⟨.dir, false⟩)] _
    "d/.atomicwriteX" [[1], [2]] rfl

/-! ## Claim C7 -/

/-- Claim C7: `Error::kind` maps HTTP status codes 404 and 410 to the
not-found kind, 401 and 403 to the permission-denied kind, and every other
code to the other/unclassified kind; an `Io` error keeps the kind of the
wrapped OS error. -/
theorem C7_error_kind_classification (msg : String) (e : IoErrorM) (code : Nat) :
    (Error.http 404 msg).kind = ErrorKindM.notFound ∧
    (Error.http 410 msg).kind = ErrorKindM.notFound ∧
    (Error.http 401 msg).kind = ErrorKindM.permissionDenied ∧
    (Error.http 403 msg).kind = ErrorKindM.permissionDenied ∧
    (code ≠ 404 → code ≠ 410 → code ≠ 401 → code ≠ 403 →
      (Error.http code msg).kind = ErrorKindM.other) ∧
    (Error.io e).kind = e.kind := by
  refine ⟨rfl, rfl, rfl, rfl, ?_, rfl⟩
  intro h404 h410 h401 h403
  simp [Error.kind, h404, h410, h401, h403]

/-- Witness for C7 at concrete inputs: code 500 is none of the special cases
and classifies as `other`. -/
theorem C7_error_kind_classification_witness :
    (Error.http 500 "oops").kind = ErrorKindM.other :=
  ((((((C7_error_kind_classification "oops" (.fromRawOsError 2) 500).2).2).2).2).1)
    (by decide) (by decide) (by decide) (by decide)

end Clio
